import Mathlib

/-!
Verification of the round-table orchestration engine of the `ai-cli` repository.

The definitions below are a shallow embedding of `src/ai-cli/core/chat.py`
(class `ChatEngine`), `src/ai-cli/core/messages.py` (`ChatMessage`) and
`src/ai_cli/config/models.py` / `src/ai-cli/config/models.py` (`AIConfig` and
friends).  Python dicts are modelled as insertion-ordered association lists
(`alookup` / `dictInsert` reproduce `d[k]` and `d[k] = v`); Python exceptions
are modelled as an `Except PyExn` channel carrying the exception class and
message; the `asyncio` timing of a parallel round is modelled by explicit
wall-clock arithmetic (all tasks start at time 0 and a task of duration `d`
awaited from time `t` with timeout `T` completes at `max t d` when `d ≤ t + T`
and otherwise raises `TimeoutError` at `t + T`).  The provider client
(`ProviderFactory` / `provider.chat_stream`, whose implementation is an
external collaborator) is a function parameter giving, per model and message
list, the wall-clock duration of the streamed call and either the list of
streamed text chunks or the message of the exception the stream raises.
-/

namespace AiCli

/-- A turn, from `src/ai-cli/core/messages.py` (`ChatMessage`): a role, a
content string, and a metadata dict (defaulting to `{}`), modelled as an
association list. -/
structure ChatMessage where
  role : String
  content : String
  metadata : List (String × String) := []
  deriving DecidableEq, Repr

/-- The provider enum of `ModelConfig.provider`
(`Literal["openai", "anthropic", "ollama", "gemini"]`). -/
inductive Provider
  | openai
  | anthropic
  | ollama
  | gemini
  deriving DecidableEq, Repr

/-- `ModelConfig` from `config/models.py`.  The Python `temperature` float is
modelled as a rational number; no claim depends on float semantics. -/
structure ModelConfig where
  provider : Provider := .openai
  api_key : Option String := none
  endpoint : Option String := none
  model : String
  max_tokens : Nat := 4000
  temperature : ℚ := 7/10
  context_window : Nat := 4000
  deriving DecidableEq, Repr

/-- `RoundTableConfig` from `config/models.py`. -/
structure RoundTableConfig where
  enabled_models : List String := []
  discussion_rounds : Nat := 2
  critique_mode : Bool := true
  parallel_responses : Bool := false
  timeout_seconds : Nat := 30
  deriving DecidableEq, Repr

/-- `UIConfig` from `config/models.py` (the two `Literal` fields are modelled
as strings). -/
structure UIConfig where
  theme : String := "dark"
  streaming : Bool := true
  format : String := "markdown"
  show_model_icons : Bool := true
  show_timestamps : Bool := false
  deriving DecidableEq, Repr

/-- `AIConfig` from `config/models.py`: the `models` dict is an
insertion-ordered association list from model name to `ModelConfig`. -/
structure AIConfig where
  default_model : String := "openai/gpt-4"
  models : List (String × ModelConfig) := []
  roundtable : RoundTableConfig := {}
  ui : UIConfig := {}
  deriving DecidableEq, Repr

/-- A raised Python exception: its class name and its message. -/
structure PyExn where
  kind : String
  msg : String
  deriving DecidableEq, Repr

/-- Python dict read `d.get(k)` / `k in d` on an insertion-ordered
association list. -/
def alookup {α : Type} (d : List (String × α)) (k : String) : Option α :=
  match d with
  | [] => none
  | p :: rest => if p.1 = k then some p.2 else alookup rest k

/-- Python dict write `d[k] = v`: an existing key keeps its position and gets
the new value; a new key is appended at the end (insertion order). -/
def dictInsert (d : List (String × String)) (k v : String) :
    List (String × String) :=
  if (alookup d k).isSome then
    d.map (fun p => if p.1 = k then (k, v) else p)
  else
    d ++ [(k, v)]

/-- `AIConfig.get_model_config` (both `src/ai_cli/config/models.py`, which
returns `self.models[model_name]`, and `src/ai-cli/config/models.py`, which
re-validates a stored dict into a `ModelConfig` — identical at this typed
level): raise `ValueError` when the name is not a key of `models`, otherwise
return that model's configuration.  It only reads the configuration. -/
def get_model_config (cfg : AIConfig) (model_name : String) :
    Except PyExn ModelConfig :=
  match alookup cfg.models model_name with
  | none =>
      .error ⟨"ValueError",
        s!"Model \x27{model_name}\x27 not found in configuration"⟩
  | some c => .ok c

/-- The characters stripped by Python `str.strip()` (ASCII whitespace). -/
def isPySpace (c : Char) : Bool :=
  c = ' ' || c = '\t' || c = '\n' || c = '\r' || c = '\x0b' || c = '\x0c'

/-- Python `s.strip()`: drop leading and trailing whitespace. -/
def pyStrip (s : String) : String :=
  String.mk (((s.toList.dropWhile isPySpace).reverse.dropWhile
    isPySpace).reverse)

/-- One provider-client call (`provider.chat_stream(messages)` obtained from
`ProviderFactory.get_provider(model)`): the wall-clock duration of the call
and either the streamed text chunks or the raised exception's message. -/
structure ProviderReply where
  duration : Nat
  chunks : Except String (List String)

/-- The provider client, as a deterministic function of the model name and
the message list sent. -/
def ProviderFun : Type := String → List ChatMessage → ProviderReply

/-- `ChatEngine._get_model_response` (chat.py lines 175-187): stream the
chunks, accumulate them with `response += chunk`, and return
`response.strip()`; a raised provider exception propagates. -/
def get_model_response (provider : ProviderFun) (model_name : String)
    (messages : List ChatMessage) : Except String String :=
  match (provider model_name messages).chunks with
  | .ok cs => .ok (pyStrip (String.join cs))
  | .error e => .error e

/-- The assistant turn appended for a model's response:
`ChatMessage("assistant", response, {"model": model})`. -/
def assistantTurn (model response : String) : ChatMessage :=
  ⟨"assistant", response, [("model", model)]⟩

/-- The timeout marker of chat.py line 132. -/
def timeoutMarker (model : String) : String := s!"⚠️ {model} timed out"

/-- The parallel-round error marker of chat.py line 134. -/
def errorMarker (model e : String) : String := s!"❌ {model} error: {e}"

/-- The sequential-round error marker of chat.py line 169. -/
def seqErrorMarker (e : String) : String := s!"❌ Error: {e}"

/-- `ChatEngine._run_parallel_round` (chat.py lines 99-139), awaiting loop.
All tasks are created up front (so every task starts at time 0); the loop
then awaits them in configured model order, each with
`asyncio.wait_for(task, timeout=T)` measured from the orchestrator's current
clock `t`: a task of duration `d` completes (or delivers its exception, which
is caught and becomes an error marker) at `max t d` when `d ≤ t + T`, and
otherwise `TimeoutError` is raised at `t + T` and a timeout marker is
recorded. -/
def run_parallel_round_aux (provider : ProviderFun) (T : Nat)
    (history : List ChatMessage) :
    List String → Nat → List (String × String) → List (String × String)
  | [], _, responses => responses
  | model :: rest, t, responses =>
    let r := provider model history
    if r.duration ≤ t + T then
      match get_model_response provider model history with
      | .ok response =>
          run_parallel_round_aux provider T history rest (max t r.duration)
            (dictInsert responses model response)
      | .error e =>
          run_parallel_round_aux provider T history rest (max t r.duration)
            (dictInsert responses model (errorMarker model e))
    else
      run_parallel_round_aux provider T history rest (t + T)
        (dictInsert responses model (timeoutMarker model))

/-- `ChatEngine._run_parallel_round`: returns the responses dict. -/
def run_parallel_round (provider : ProviderFun) (cfg : AIConfig)
    (history : List ChatMessage) (models : List String) :
    List (String × String) :=
  run_parallel_round_aux provider cfg.roundtable.timeout_seconds history
    models 0 []

/-- One executed iteration of the sequential-round loop: the model, the
context (`current_history`) sent to it, and the value finally recorded in
`responses` for it. -/
structure SeqStep where
  model : String
  context : List ChatMessage
  value : String
  deriving DecidableEq, Repr

/-- `ChatEngine._run_sequential_round` (chat.py lines 141-173), loop body, as
a trace of executed iterations.  For the model at (0-based) index `i`: when
`i > 0` and `critique_mode` is set the context is the round-start history
plus every response recorded so far in this round, each as an assistant turn
tagged with its model; otherwise the round-start history.  A provider
exception is caught and recorded as `"❌ Error: …"`.  Displaying a response
(`_display_single_response`) calls `get_model_config`, which raises
`ValueError` when the model is not configured; the first such raise is caught
by the per-model handler, but the handler displays the error message and
thereby raises the same `ValueError` again, uncaught, aborting the round. -/
def run_sequential_round_aux (provider : ProviderFun) (cfg : AIConfig)
    (history : List ChatMessage) :
    List String → Nat → List (String × String) → Except PyExn (List SeqStep)
  | [], _, _ => .ok []
  | model :: rest, i, responses =>
    let current_history :=
      if 0 < i ∧ cfg.roundtable.critique_mode = true then
        history ++ responses.map (fun p => assistantTurn p.1 p.2)
      else history
    match get_model_response provider model current_history with
    | .ok response =>
        match get_model_config cfg model with
        | .ok _ =>
            (run_sequential_round_aux provider cfg history rest (i + 1)
              (dictInsert responses model response)).map
              (fun steps => ⟨model, current_history, response⟩ :: steps)
        | .error e => .error e
    | .error e0 =>
        match get_model_config cfg model with
        | .ok _ =>
            (run_sequential_round_aux provider cfg history rest (i + 1)
              (dictInsert responses model (seqErrorMarker e0))).map
              (fun steps =>
                ⟨model, current_history, seqErrorMarker e0⟩ :: steps)
        | .error e => .error e

/-- Rebuild the `responses` dict of a sequential round from its trace (the
loop performs exactly one `responses[model] = value` per executed step). -/
def stepsToResponses (steps : List SeqStep) : List (String × String) :=
  steps.foldl (fun d s => dictInsert d s.model s.value) []

/-- `ChatEngine._run_sequential_round`: the responses dict (or the escaped
`ValueError`). -/
def run_sequential_round (provider : ProviderFun) (cfg : AIConfig)
    (history : List ChatMessage) (models : List String) :
    Except PyExn (List (String × String)) :=
  (run_sequential_round_aux provider cfg history models 0 []).map
    stepsToResponses

/-- How `roundtable_chat` ends when no exception escapes: either the early
return of lines 55-57 (a printed warning that at least 2 models are needed;
the conversation is never even created), or normal completion with the final
`conversation_history`. -/
inductive RunExit
  | warned
  | completed (conversation : List ChatMessage)
  deriving DecidableEq, Repr

/-- The round loop of `ChatEngine.roundtable_chat` (chat.py lines 73-93),
recursing on the number of rounds still to run: run the round (parallel or
sequential), then append one assistant turn per entry of the responses dict,
in dict (= configured model) order, tagged with the producing model. -/
def roundtable_rounds (provider : ProviderFun) (cfg : AIConfig)
    (enabled_models : List String) (parallel : Bool) :
    Nat → List ChatMessage → Except PyExn (List ChatMessage)
  | 0, conversation_history => .ok conversation_history
  | r + 1, conversation_history =>
    let resE : Except PyExn (List (String × String)) :=
      if parallel then
        .ok (run_parallel_round provider cfg conversation_history
          enabled_models)
      else
        run_sequential_round provider cfg conversation_history enabled_models
    match resE with
    | .error e => .error e
    | .ok responses =>
        roundtable_rounds provider cfg enabled_models parallel r
          (conversation_history ++
            responses.map (fun p => assistantTurn p.1 p.2))

/-- `ChatEngine.roundtable_chat` (chat.py lines 51-97): with fewer than 2
enabled models, print a warning and return (no exception, no conversation,
no provider call); otherwise seed the conversation with the user prompt and
run `discussion_rounds` rounds.  An exception escaping a round is re-raised
after printing an error. -/
def roundtable_chat (provider : ProviderFun) (cfg : AIConfig) (prompt : String)
    (parallel : Bool) : Except PyExn RunExit :=
  if cfg.roundtable.enabled_models.length < 2 then .ok .warned
  else
    match roundtable_rounds provider cfg cfg.roundtable.enabled_models
        parallel cfg.roundtable.discussion_rounds [⟨"user", prompt, []⟩] with
    | .error e => .error e
    | .ok conv => .ok (.completed conv)

/-- The orchestrator clock after awaiting one model's task from time `t`
(`asyncio.wait_for` semantics of the parallel round): completion or exception
delivery at `max t d`, timeout at `t + T`. -/
def clockStep (provider : ProviderFun) (T : Nat) (history : List ChatMessage)
    (t : Nat) (model : String) : Nat :=
  let r := provider model history
  if r.duration ≤ t + T then max t r.duration else t + T

/-- The time at which the parallel-round loop begins awaiting the model that
follows the given prefix of the model list. -/
def awaitStart (provider : ProviderFun) (T : Nat) (history : List ChatMessage)
    (models : List String) : Nat :=
  models.foldl (clockStep provider T history) 0

/-- The value the parallel round records for a model awaited from time `t`. -/
def parallelEntry (provider : ProviderFun) (T : Nat)
    (history : List ChatMessage) (model : String) (t : Nat) : String :=
  if (provider model history).duration ≤ t + T then
    match get_model_response provider model history with
    | .ok response => response
    | .error e => errorMarker model e
  else timeoutMarker model

/-- The parallel round, in list normal form: one entry per model in
configured order (coincides with `run_parallel_round` on duplicate-free model
lists, where Python dict insertion never overwrites). -/
def parallelList (provider : ProviderFun) (T : Nat)
    (history : List ChatMessage) : List String → Nat → List (String × String)
  | [], _ => []
  | m :: ms, t =>
    (m, parallelEntry provider T history m t) ::
      parallelList provider T history ms (clockStep provider T history t m)

/-- The discussion-role enum of the spec's Role Assignment Resolver
(`DiscussionRole`), in its canonical order. -/
inductive DiscussionRole
  | generator
  | critic
  | refiner
  | evaluator
  deriving DecidableEq, Repr

/-- The canonical role cycle {generator, critic, refiner, evaluator}. -/
def canonicalRoles : List DiscussionRole :=
  [.generator, .critic, .refiner, .evaluator]

/-- The role-related round-table settings referenced by
`src/ai_cli/cli.py` (`use_role_based_prompting`, `role_rotation`,
`role_assignments`); their defining module is not under `src/`. -/
structure RoleSettings where
  use_role_based_prompting : Bool
  role_rotation : Bool
  role_assignments : List (String × List DiscussionRole)
  deriving Repr

/-- Modelled from the spec: the Role Assignment Resolver
(`active_role_for(model, round_index, settings)`, spec §4.2) is not present
under `src/` — only its configuration accessors in `src/ai_cli/cli.py` are.
Per the spec: no role when role-based prompting is off; with rotation
enabled, the active role is element `round_index mod |assigned roles|` of the
model's assigned-role list, a model with no assignments cycling through the
full enum in canonical order; with rotation disabled, the first assigned
role. -/
def active_role_for (settings : RoleSettings) (model : String)
    (round_index : Nat) : Option DiscussionRole :=
  if settings.use_role_based_prompting = false then none
  else
    let assigned := (alookup settings.role_assignments model).getD []
    let roles := if assigned.isEmpty then canonicalRoles else assigned
    if settings.role_rotation then
      some (roles.getD (round_index % roles.length) .generator)
    else
      some (roles.getD 0 .generator)

/-! ### Concrete instances used in evaluations -/

/-- A minimal model configuration. -/
def mcA : ModelConfig := { model := "model-a" }

/-- A second minimal model configuration. -/
def mcB : ModelConfig := { model := "model-b" }

/-- A configuration with two configured, enabled models `A` and `B` (other
fields at their defaults: 2 rounds, critique mode on, 30 s timeout). -/
def cfgTwo : AIConfig :=
  { models := [("A", mcA), ("B", mcB)],
    roundtable := { enabled_models := ["A", "B"] } }

/-- A configuration with a single enabled model. -/
def cfgOne : AIConfig :=
  { models := [("A", mcA)],
    roundtable := { enabled_models := ["A"] } }

/-- A provider stub with a fixed instantaneous response. -/
def provStub : ProviderFun := fun _ _ => ⟨0, .ok ["stub response"]⟩

/-- A deterministic provider: `A` answers `alpha`, everyone else `beta`. -/
def provSeq : ProviderFun := fun model _ =>
  if model = "A" then ⟨1, .ok ["alpha"]⟩ else ⟨1, .ok ["beta"]⟩

/-- `A` answers within 25 time units, `B` only after 50 (against the default
30-unit timeout). -/
def provSlowB : ProviderFun := fun model _ =>
  if model = "A" then ⟨25, .ok ["alpha"]⟩ else ⟨50, .ok ["beta"]⟩

/-- `A` streams chunks whose concatenation carries trailing whitespace. -/
def provPad : ProviderFun := fun model _ =>
  if model = "A" then ⟨0, .ok ["hello ", "world "]⟩ else ⟨0, .ok ["ok"]⟩

/-- `B`'s call raises (message `boom`); `A` answers normally. -/
def provFail : ProviderFun := fun model _ =>
  if model = "A" then ⟨1, .ok ["alpha"]⟩ else ⟨1, .error "boom"⟩

/-- `A`'s call takes 100 time units (past the 30-unit timeout even from its
own await start); `B` answers quickly. -/
def provHang : ProviderFun := fun model _ =>
  if model = "A" then ⟨100, .ok ["alpha"]⟩ else ⟨1, .ok ["beta"]⟩

/-- Role settings with rotation on and `m` assigned {generator, critic}. -/
def roleSettingsW : RoleSettings :=
  { use_role_based_prompting := true, role_rotation := true,
    role_assignments := [("m", [.generator, .critic])] }

/-! ### Dictionary lemmas -/

theorem alookup_append_single {α : Type} (d : List (String × α))
    (k m : String) (v : α) (hd : alookup d k = none) (hk : k ≠ m) :
    alookup (d ++ [(m, v)]) k = none := by
  induction d with
  | nil =>
      simp only [List.nil_append, alookup]
      rw [if_neg (fun h => hk h.symm)]
  | cons p rest ih =>
      by_cases h1 : p.1 = k
      · simp [alookup, h1] at hd
      · simp only [alookup, h1, if_false] at hd
        simpa [alookup, h1] using ih hd

theorem dictInsert_not_mem (d : List (String × String)) (k v : String)
    (h : alookup d k = none) : dictInsert d k v = d ++ [(k, v)] := by
  simp [dictInsert, h]

/-! ### Parallel-round normal form -/

theorem run_parallel_round_aux_cons (provider : ProviderFun) (T : Nat)
    (history : List ChatMessage) (m : String) (ms : List String) (t : Nat)
    (resp : List (String × String)) :
    run_parallel_round_aux provider T history (m :: ms) t resp =
      (if (provider m history).duration ≤ t + T then
        match get_model_response provider m history with
        | .ok response =>
            run_parallel_round_aux provider T history ms
              (max t (provider m history).duration)
              (dictInsert resp m response)
        | .error e =>
            run_parallel_round_aux provider T history ms
              (max t (provider m history).duration)
              (dictInsert resp m (errorMarker m e))
      else
        run_parallel_round_aux provider T history ms (t + T)
          (dictInsert resp m (timeoutMarker m))) := rfl

theorem run_parallel_round_aux_eq (provider : ProviderFun) (T : Nat)
    (history : List ChatMessage) :
    ∀ (ms : List String) (t : Nat) (resp : List (String × String)),
      ms.Nodup → (∀ m ∈ ms, alookup resp m = none) →
      run_parallel_round_aux provider T history ms t resp =
        resp ++ parallelList provider T history ms t := by
  intro ms
  induction ms with
  | nil => intro t resp _ _; simp [run_parallel_round_aux, parallelList]
  | cons m ms ih =>
      intro t resp hnd hdisj
      have hm : alookup resp m = none := hdisj m (by simp)
      obtain ⟨hmnot, hnd'⟩ := List.nodup_cons.mp hnd
      have hdisj' : ∀ v : String, ∀ x ∈ ms,
          alookup (resp ++ [(m, v)]) x = none := by
        intro v x hx
        exact alookup_append_single resp x m v (hdisj x (by simp [hx]))
          (fun hxe => hmnot (hxe ▸ hx))
      rw [run_parallel_round_aux_cons]
      by_cases hd : (provider m history).duration ≤ t + T
      · rw [if_pos hd]
        cases hgr : get_model_response provider m history with
        | ok response =>
            show run_parallel_round_aux provider T history ms
                (max t (provider m history).duration)
                (dictInsert resp m response) =
              resp ++ parallelList provider T history (m :: ms) t
            rw [dictInsert_not_mem _ _ _ hm,
              ih (max t (provider m history).duration) _ hnd' (hdisj' _)]
            simp [parallelList, parallelEntry, clockStep, hd, hgr,
              List.append_assoc]
        | error e =>
            show run_parallel_round_aux provider T history ms
                (max t (provider m history).duration)
                (dictInsert resp m (errorMarker m e)) =
              resp ++ parallelList provider T history (m :: ms) t
            rw [dictInsert_not_mem _ _ _ hm,
              ih (max t (provider m history).duration) _ hnd' (hdisj' _)]
            simp [parallelList, parallelEntry, clockStep, hd, hgr,
              List.append_assoc]
      · rw [if_neg hd]
        rw [dictInsert_not_mem _ _ _ hm, ih (t + T) _ hnd' (hdisj' _)]
        simp [parallelList, parallelEntry, clockStep, hd, List.append_assoc]

theorem run_parallel_round_eq (provider : ProviderFun) (cfg : AIConfig)
    (history : List ChatMessage) (models : List String)
    (hnd : models.Nodup) :
    run_parallel_round provider cfg history models =
      parallelList provider cfg.roundtable.timeout_seconds history models 0 := by
  have h := run_parallel_round_aux_eq provider cfg.roundtable.timeout_seconds
    history models 0 [] hnd (fun m _ => rfl)
  simpa [run_parallel_round] using h

theorem parallelList_keys (provider : ProviderFun) (T : Nat)
    (history : List ChatMessage) :
    ∀ (ms : List String) (t : Nat),
      (parallelList provider T history ms t).map Prod.fst = ms := by
  intro ms
  induction ms with
  | nil => intro t; rfl
  | cons m ms ih => intro t; simp [parallelList, ih]

theorem parallelList_alookup (provider : ProviderFun) (T : Nat)
    (history : List ChatMessage) :
    ∀ (ms : List String), ms.Nodup →
      ∀ (i : Nat) (hi : i < ms.length) (t : Nat),
        alookup (parallelList provider T history ms t) (ms.get ⟨i, hi⟩) =
          some (parallelEntry provider T history (ms.get ⟨i, hi⟩)
            (List.foldl (clockStep provider T history) t (ms.take i))) := by
  intro ms
  induction ms with
  | nil => intro _ i hi; exact absurd hi (by simp)
  | cons m ms ih =>
      intro hnd i hi t
      obtain ⟨hmnot, hnd'⟩ := List.nodup_cons.mp hnd
      cases i with
      | zero => simp [parallelList, alookup, List.take]
      | succ i =>
          have hi' : i < ms.length := by simpa using hi
          have hget : (m :: ms).get ⟨i + 1, hi⟩ = ms.get ⟨i, hi'⟩ := rfl
          have hne : ¬ m = ms.get ⟨i, hi'⟩ :=
            fun he => hmnot (he ▸ List.get_mem ms i hi')
          rw [hget]
          simp only [parallelList, alookup, hne, if_false, List.take,
            List.foldl_cons]
          exact ih hnd' i hi' (clockStep provider T history t m)

/-! ### Sequential-round characterization -/

theorem foldl_dictInsert_append :
    ∀ (ps : List (String × String)) (d : List (String × String)),
      (ps.map Prod.fst).Nodup → (∀ p ∈ ps, alookup d p.1 = none) →
      ps.foldl (fun d p => dictInsert d p.1 p.2) d = d ++ ps := by
  intro ps
  induction ps with
  | nil => intro d _ _; simp
  | cons p ps ih =>
      intro d hnd hdisj
      rw [List.map_cons] at hnd
      obtain ⟨hp1, hnd'⟩ := List.nodup_cons.mp hnd
      simp only [List.foldl_cons]
      rw [dictInsert_not_mem _ _ _ (hdisj p (by simp)),
        ih (d ++ [(p.1, p.2)]) hnd' ?_]
      · simp [List.append_assoc]
      · intro q hq
        refine alookup_append_single _ _ _ _ (hdisj q (by simp [hq])) ?_
        exact fun he => hp1 (he ▸ List.mem_map_of_mem Prod.fst hq)

theorem stepsToResponses_eq (steps : List SeqStep)
    (hnd : (steps.map SeqStep.model).Nodup) :
    stepsToResponses steps = steps.map (fun s => (s.model, s.value)) := by
  have h := foldl_dictInsert_append (steps.map (fun s => (s.model, s.value)))
    [] (by simpa [List.map_map, Function.comp] using hnd) (fun p _ => rfl)
  simpa [stepsToResponses, List.foldl_map] using h

theorem run_sequential_round_aux_spec (provider : ProviderFun)
    (cfg : AIConfig) (history : List ChatMessage) :
    ∀ (ms : List String) (i : Nat) (resp : List (String × String)),
      ms.Nodup →
      (∀ m ∈ ms, (alookup cfg.models m).isSome) →
      (∀ m ∈ ms, alookup resp m = none) →
      ∃ steps,
        run_sequential_round_aux provider cfg history ms i resp = .ok steps ∧
        steps.map SeqStep.model = ms ∧
        (∀ j (hj : j < steps.length),
          (steps.get ⟨j, hj⟩).context =
            (if 0 < i + j ∧ cfg.roundtable.critique_mode = true then
              history ++ (resp ++ (steps.take j).map
                  (fun s => (s.model, s.value))).map
                (fun p => assistantTurn p.1 p.2)
            else history)) ∧
        (∀ j (hj : j < steps.length),
          (steps.get ⟨j, hj⟩).value =
            (match get_model_response provider (steps.get ⟨j, hj⟩).model
                (steps.get ⟨j, hj⟩).context with
             | .ok r => r
             | .error e => seqErrorMarker e)) := by
  intro ms
  induction ms with
  | nil =>
      intro i resp _ _ _
      exact ⟨[], rfl, rfl, fun j hj => absurd hj (by simp),
        fun j hj => absurd hj (by simp)⟩
  | cons m ms ih =>
      intro i resp hnd hcfg hdisj
      obtain ⟨hmnot, hnd'⟩ := List.nodup_cons.mp hnd
      have hm : alookup resp m = none := hdisj m (by simp)
      obtain ⟨c, hc⟩ := Option.isSome_iff_exists.mp (hcfg m (by simp))
      have hgc : get_model_config cfg m = .ok c := by
        simp [get_model_config, hc]
      have hstep : ∀ v : String,
          (∀ x ∈ ms, alookup (resp ++ [(m, v)]) x = none) := by
        intro v x hx
        exact alookup_append_single resp x m v (hdisj x (by simp [hx]))
          (fun hxe => hmnot (hxe ▸ hx))
      cases hgr : get_model_response provider m
          (if 0 < i ∧ cfg.roundtable.critique_mode = true then
            history ++ resp.map (fun p => assistantTurn p.1 p.2)
          else history) with
      | ok response =>
          obtain ⟨steps', hrun', hkeys', hctx', hval'⟩ :=
            ih (i + 1) (resp ++ [(m, response)]) hnd'
              (fun x hx => hcfg x (by simp [hx])) (hstep response)
          refine ⟨⟨m,
            (if 0 < i ∧ cfg.roundtable.critique_mode = true then
              history ++ resp.map (fun p => assistantTurn p.1 p.2)
            else history), response⟩ :: steps', ?_, ?_, ?_, ?_⟩
          · simp only [run_sequential_round_aux, hgr, hgc]
            rw [dictInsert_not_mem _ _ _ hm, hrun']
            rfl
          · simp [hkeys']
          · intro j hj
            cases j with
            | zero => simp
            | succ j =>
                have hj' : j < steps'.length := by simpa using hj
                have h := hctx' j hj'
                have hpos1 : 0 < i + 1 + j := by omega
                have hpos2 : 0 < i + (j + 1) := by omega
                simp only [hpos1, true_and] at h
                simp only [List.get_cons_succ, h, List.take_succ_cons,
                  List.map_cons, hpos2, true_and]
                by_cases hcm : cfg.roundtable.critique_mode = true
                · simp [hcm, List.append_assoc]
                · simp [hcm]
          · intro j hj
            cases j with
            | zero => simp [hgr]
            | succ j =>
                have hj' : j < steps'.length := by simpa using hj
                simpa using hval' j hj'
      | error e0 =>
          obtain ⟨steps', hrun', hkeys', hctx', hval'⟩ :=
            ih (i + 1) (resp ++ [(m, seqErrorMarker e0)]) hnd'
              (fun x hx => hcfg x (by simp [hx])) (hstep (seqErrorMarker e0))
          refine ⟨⟨m,
            (if 0 < i ∧ cfg.roundtable.critique_mode = true then
              history ++ resp.map (fun p => assistantTurn p.1 p.2)
            else history), seqErrorMarker e0⟩ :: steps', ?_, ?_, ?_, ?_⟩
          · simp only [run_sequential_round_aux, hgr, hgc]
            rw [dictInsert_not_mem _ _ _ hm, hrun']
            rfl
          · simp [hkeys']
          · intro j hj
            cases j with
            | zero => simp
            | succ j =>
                have hj' : j < steps'.length := by simpa using hj
                have h := hctx' j hj'
                have hpos1 : 0 < i + 1 + j := by omega
                have hpos2 : 0 < i + (j + 1) := by omega
                simp only [hpos1, true_and] at h
                simp only [List.get_cons_succ, h, List.take_succ_cons,
                  List.map_cons, hpos2, true_and]
                by_cases hcm : cfg.roundtable.critique_mode = true
                · simp [hcm, List.append_assoc]
                · simp [hcm]
          · intro j hj
            cases j with
            | zero => simp [hgr]
            | succ j =>
                have hj' : j < steps'.length := by simpa using hj
                simpa using hval' j hj'

theorem run_sequential_round_spec (provider : ProviderFun) (cfg : AIConfig)
    (history : List ChatMessage) (models : List String)
    (hnd : models.Nodup)
    (hcfg : ∀ m ∈ models, (alookup cfg.models m).isSome) :
    ∃ steps,
      run_sequential_round_aux provider cfg history models 0 [] = .ok steps ∧
      steps.map SeqStep.model = models ∧
      run_sequential_round provider cfg history models =
        .ok (steps.map (fun s => (s.model, s.value))) := by
  obtain ⟨steps, hrun, hkeys, _, _⟩ :=
    run_sequential_round_aux_spec provider cfg history models 0 [] hnd hcfg
      (fun m _ => rfl)
  refine ⟨steps, hrun, hkeys, ?_⟩
  simp only [run_sequential_round, hrun, Except.map]
  rw [stepsToResponses_eq steps (by rw [hkeys]; exact hnd)]

/-! ### The round loop -/

theorem roundtable_rounds_spec (provider : ProviderFun) (cfg : AIConfig)
    (parallel : Bool) (models : List String) (hnd : models.Nodup)
    (hcfg : ∀ m ∈ models, (alookup cfg.models m).isSome) :
    ∀ (n : Nat) (conv : List ChatMessage),
      ∃ extra : List ChatMessage,
        roundtable_rounds provider cfg models parallel n conv =
          .ok (conv ++ extra) ∧
        extra.length = n * models.length ∧
        ∀ turn ∈ extra, turn.role = "assistant" := by
  intro n
  induction n with
  | zero =>
      intro conv
      exact ⟨[], by simp [roundtable_rounds], by simp, by simp⟩
  | succ n ihn =>
      intro conv
      have key : ∃ resp : List (String × String),
          roundtable_rounds provider cfg models parallel (n + 1) conv =
            roundtable_rounds provider cfg models parallel n
              (conv ++ resp.map (fun p => assistantTurn p.1 p.2)) ∧
          resp.length = models.length := by
        cases parallel with
        | true =>
            refine ⟨run_parallel_round provider cfg conv models, ?_, ?_⟩
            · simp only [roundtable_rounds]
              rfl
            · have h1 : (run_parallel_round provider cfg conv models).map
                  Prod.fst = models := by
                rw [run_parallel_round_eq provider cfg conv models hnd]
                exact parallelList_keys provider
                  cfg.roundtable.timeout_seconds conv models 0
              have h2 := congrArg List.length h1
              simpa using h2
        | false =>
            obtain ⟨steps, _, hkeys, hrun⟩ :=
              run_sequential_round_spec provider cfg conv models hnd hcfg
            refine ⟨steps.map (fun s => (s.model, s.value)), ?_, ?_⟩
            · simp only [roundtable_rounds, hrun]
              rfl
            · have h2 := congrArg List.length hkeys
              simpa using h2
      obtain ⟨resp, hstep, hlen⟩ := key
      obtain ⟨extra, hrec, hlenx, hrole⟩ :=
        ihn (conv ++ resp.map (fun p => assistantTurn p.1 p.2))
      refine ⟨resp.map (fun p => assistantTurn p.1 p.2) ++ extra, ?_, ?_, ?_⟩
      · rw [hstep, hrec, List.append_assoc]
      · simp only [List.length_append, List.length_map]
        rw [hlen, hlenx, Nat.succ_mul, Nat.add_comm]
      · intro turn ht
        rcases List.mem_append.mp ht with h | h
        · obtain ⟨p, _, rfl⟩ := List.mem_map.mp h
          rfl
        · exact hrole turn h

/-! ### Claim theorems -/

/-- Claim C1: for a round-table run that completes successfully (at least 2
distinct enabled models, all configured, so that every round executes), the
final conversation has exactly `1 + discussion_rounds * |enabled_models|`
turns: the seed user turn followed only by assistant turns, one per enabled
model per round, in both parallel and sequential mode. -/
theorem roundtable_conversation_length (provider : ProviderFun)
    (cfg : AIConfig) (prompt : String) (parallel : Bool)
    (h2 : 2 ≤ cfg.roundtable.enabled_models.length)
    (hnd : cfg.roundtable.enabled_models.Nodup)
    (hcfg : ∀ m ∈ cfg.roundtable.enabled_models,
      (alookup cfg.models m).isSome) :
    ∃ conv,
      roundtable_chat provider cfg prompt parallel = .ok (.completed conv) ∧
      conv.length = 1 + cfg.roundtable.discussion_rounds *
        cfg.roundtable.enabled_models.length ∧
      conv.head? = some ⟨"user", prompt, []⟩ ∧
      ∀ turn ∈ conv.drop 1, turn.role = "assistant" := by
  obtain ⟨extra, hrun, hlen, hrole⟩ :=
    roundtable_rounds_spec provider cfg parallel _ hnd hcfg
      cfg.roundtable.discussion_rounds [⟨"user", prompt, []⟩]
  refine ⟨⟨"user", prompt, []⟩ :: extra, ?_, ?_, rfl, by simpa using hrole⟩
  · simp only [roundtable_chat]
    rw [if_neg (by omega), hrun]
    rfl
  · simp only [List.length_cons]
    rw [hlen, Nat.add_comm]

/-- Claim C1 witness: two models, two rounds, sequential mode — the run
completes and the conversation has `1 + 2 * 2 = 5` turns. -/
theorem roundtable_conversation_length_witness :
    ∃ conv,
      roundtable_chat provSeq cfgTwo "topic" false = .ok (.completed conv) ∧
      conv.length = 1 + cfgTwo.roundtable.discussion_rounds *
        cfgTwo.roundtable.enabled_models.length ∧
      conv.head? = some ⟨"user", "topic", []⟩ ∧
      ∀ turn ∈ conv.drop 1, turn.role = "assistant" :=
  roundtable_conversation_length provSeq cfgTwo "topic" false (by decide)
    (by decide) (by decide)

/-- Claim C2 (amended): with fewer than 2 enabled models, `roundtable_chat`
prints a warning and returns normally — it raises no exception — before the
seed conversation is even created and before any provider call; since the
provider is universally quantified here, the outcome is independent of the
provider, i.e. no provider call influences the run. -/
theorem roundtable_insufficient_models_warns (provider : ProviderFun)
    (cfg : AIConfig) (prompt : String) (parallel : Bool)
    (h : cfg.roundtable.enabled_models.length < 2) :
    roundtable_chat provider cfg prompt parallel = .ok .warned := by
  simp [roundtable_chat, h]

/-- Claim C2 witness: one enabled model — the run returns the warning exit. -/
theorem roundtable_insufficient_models_warns_witness :
    roundtable_chat provStub cfgOne "hello" false = .ok .warned :=
  roundtable_insufficient_models_warns provStub cfgOne "hello" false
    (by decide)

/-- Claim C2 counterexample: with one enabled model the run does NOT fail —
there is no `InsufficientModelsError` anywhere in the code; chat.py lines
55-57 print a warning and return normally, so the result is a normal value
(`Except.ok`), not a raised exception. -/
theorem roundtable_insufficient_models_no_exception :
    roundtable_chat provStub cfgOne "hello" false = .ok .warned ∧
    (roundtable_chat provStub cfgOne "hello" false).isOk = true := by
  constructor <;> rfl

/-- Claim C3: in a sequential round over duplicate-free configured models,
with critique mode enabled the context sent to the model at position `j > 0`
is the round-start conversation plus the responses already produced at
positions `0..j-1` of the same round, each appended as an assistant turn
tagged with its producing model; with critique mode disabled (and for the
first model regardless), every model receives exactly the round-start
conversation. -/
theorem sequential_critique_context (provider : ProviderFun) (cfg : AIConfig)
    (history : List ChatMessage) (models : List String)
    (hnd : models.Nodup)
    (hcfg : ∀ m ∈ models, (alookup cfg.models m).isSome) :
    ∃ steps,
      run_sequential_round_aux provider cfg history models 0 [] = .ok steps ∧
      steps.map SeqStep.model = models ∧
      ∀ j (hj : j < steps.length),
        (cfg.roundtable.critique_mode = true → 0 < j →
          (steps.get ⟨j, hj⟩).context =
            history ++ (steps.take j).map
              (fun s => assistantTurn s.model s.value)) ∧
        (cfg.roundtable.critique_mode = false →
          (steps.get ⟨j, hj⟩).context = history) ∧
        (j = 0 → (steps.get ⟨j, hj⟩).context = history) := by
  obtain ⟨steps, hrun, hkeys, hctx, _⟩ :=
    run_sequential_round_aux_spec provider cfg history models 0 []
      hnd hcfg (fun m _ => rfl)
  refine ⟨steps, hrun, hkeys, ?_⟩
  intro j hj
  have h := hctx j hj
  refine ⟨?_, ?_, ?_⟩
  · intro hcm hpos
    rw [h, if_pos ⟨by omega, hcm⟩]
    simp only [List.nil_append, List.map_map]
    rfl
  · intro hcm
    rw [h, if_neg (by simp [hcm])]
  · intro hj0
    subst hj0
    rw [h, if_neg (by simp)]

/-- Claim C3 witness: two configured models, sequential critique round. -/
theorem sequential_critique_context_witness :
    ∃ steps,
      run_sequential_round_aux provSeq cfgTwo [⟨"user", "topic", []⟩]
        cfgTwo.roundtable.enabled_models 0 [] = .ok steps ∧
      steps.map SeqStep.model = cfgTwo.roundtable.enabled_models ∧
      ∀ j (hj : j < steps.length),
        (cfgTwo.roundtable.critique_mode = true → 0 < j →
          (steps.get ⟨j, hj⟩).context =
            [⟨"user", "topic", []⟩] ++ (steps.take j).map
              (fun s => assistantTurn s.model s.value)) ∧
        (cfgTwo.roundtable.critique_mode = false →
          (steps.get ⟨j, hj⟩).context = [⟨"user", "topic", []⟩]) ∧
        (j = 0 → (steps.get ⟨j, hj⟩).context = [⟨"user", "topic", []⟩]) :=
  sequential_critique_context provSeq cfgTwo [⟨"user", "topic", []⟩]
    cfgTwo.roundtable.enabled_models (by decide) (by decide)

/-- Claim C4: in both modes, the responses dict of a round lists the models
in configured `enabled_models` order — for the parallel round this holds for
every provider behavior, i.e. independently of simulated completion times —
so the assistant turns appended for the round carry the model tags in
configured order. -/
theorem round_turn_order (provider : ProviderFun) (cfg : AIConfig)
    (history : List ChatMessage) (models : List String)
    (hnd : models.Nodup)
    (hcfg : ∀ m ∈ models, (alookup cfg.models m).isSome) :
    ((run_parallel_round provider cfg history models).map Prod.fst = models ∧
      ((run_parallel_round provider cfg history models).map
          (fun p => assistantTurn p.1 p.2)).map
        (fun turn => alookup turn.metadata "model") = models.map some) ∧
    ∃ resp, run_sequential_round provider cfg history models = .ok resp ∧
      resp.map Prod.fst = models ∧
      (resp.map (fun p => assistantTurn p.1 p.2)).map
        (fun turn => alookup turn.metadata "model") = models.map some := by
  have htag : ∀ resp : List (String × String), resp.map Prod.fst = models →
      (resp.map (fun p => assistantTurn p.1 p.2)).map
        (fun turn => alookup turn.metadata "model") = models.map some := by
    intro resp h
    rw [List.map_map]
    rw [show ((fun turn => alookup turn.metadata "model") ∘
        (fun p : String × String => assistantTurn p.1 p.2)) =
      (some ∘ Prod.fst) from funext fun p => rfl]
    rw [← List.map_map, h]
  have hpar : (run_parallel_round provider cfg history models).map
      Prod.fst = models := by
    rw [run_parallel_round_eq provider cfg history models hnd]
    exact parallelList_keys provider cfg.roundtable.timeout_seconds history
      models 0
  obtain ⟨steps, _, hkeys, hrun⟩ :=
    run_sequential_round_spec provider cfg history models hnd hcfg
  have hseq : (steps.map (fun s => (s.model, s.value))).map Prod.fst =
      models := by
    rw [List.map_map]
    exact hkeys
  exact ⟨⟨hpar, htag _ hpar⟩, _, hrun, hseq, htag _ hseq⟩

/-- Claim C4 witness: model `B` completes before model `A` (durations 50 and
25 against `provSlowB`), yet both the parallel and the sequential round list
`A` before `B`. -/
theorem round_turn_order_witness :
    ((run_parallel_round provSlowB cfgTwo [] cfgTwo.roundtable.enabled_models).map
        Prod.fst = cfgTwo.roundtable.enabled_models ∧
      ((run_parallel_round provSlowB cfgTwo []
          cfgTwo.roundtable.enabled_models).map
          (fun p => assistantTurn p.1 p.2)).map
        (fun turn => alookup turn.metadata "model") =
        cfgTwo.roundtable.enabled_models.map some) ∧
    ∃ resp, run_sequential_round provSlowB cfgTwo []
        cfgTwo.roundtable.enabled_models = .ok resp ∧
      resp.map Prod.fst = cfgTwo.roundtable.enabled_models ∧
      (resp.map (fun p => assistantTurn p.1 p.2)).map
        (fun turn => alookup turn.metadata "model") =
        cfgTwo.roundtable.enabled_models.map some :=
  round_turn_order provSlowB cfgTwo [] cfgTwo.roundtable.enabled_models
    (by decide) (by decide)

/-- Claim C5: in a parallel round over duplicate-free models, the responses
dict has exactly one entry per enabled model (so no round is shortened by a
failure), and a model whose call raises in time gets the error marker while a
model whose await times out gets the timeout marker — never an absent entry,
never an escaped exception (`run_parallel_round` is total). -/
theorem parallel_round_failure_markers (provider : ProviderFun)
    (cfg : AIConfig) (history : List ChatMessage) (models : List String)
    (hnd : models.Nodup) :
    (run_parallel_round provider cfg history models).map Prod.fst = models ∧
    ∀ i (hi : i < models.length),
      ((provider (models.get ⟨i, hi⟩) history).duration >
          awaitStart provider cfg.roundtable.timeout_seconds history
            (models.take i) + cfg.roundtable.timeout_seconds →
        alookup (run_parallel_round provider cfg history models)
          (models.get ⟨i, hi⟩) =
          some (timeoutMarker (models.get ⟨i, hi⟩))) ∧
      (∀ e, (provider (models.get ⟨i, hi⟩) history).chunks = .error e →
        (provider (models.get ⟨i, hi⟩) history).duration ≤
          awaitStart provider cfg.roundtable.timeout_seconds history
            (models.take i) + cfg.roundtable.timeout_seconds →
        alookup (run_parallel_round provider cfg history models)
          (models.get ⟨i, hi⟩) =
          some (errorMarker (models.get ⟨i, hi⟩) e)) := by
  rw [run_parallel_round_eq provider cfg history models hnd]
  refine ⟨parallelList_keys provider cfg.roundtable.timeout_seconds history
    models 0, ?_⟩
  intro i hi
  have h := parallelList_alookup provider cfg.roundtable.timeout_seconds
    history models hnd i hi 0
  rw [h]
  constructor
  · intro hdur
    rw [parallelEntry, if_neg (by simpa [awaitStart] using Nat.not_le.mpr hdur)]
  · intro e he hdur
    rw [parallelEntry, if_pos (by simpa [awaitStart] using hdur)]
    simp only [List.get_eq_getElem] at he
    simp [get_model_response, he]

/-- Claim C5 witness: `A` times out (duration 100 > 30 from its await start
at time 0) and `B` errors in time; both entries exist alongside. -/
theorem parallel_round_failure_markers_witness :
    ((run_parallel_round provHang cfgTwo []
        cfgTwo.roundtable.enabled_models).map Prod.fst =
      cfgTwo.roundtable.enabled_models ∧
    alookup (run_parallel_round provHang cfgTwo []
        cfgTwo.roundtable.enabled_models) "A" = some (timeoutMarker "A")) ∧
    alookup (run_parallel_round provFail cfgTwo []
        cfgTwo.roundtable.enabled_models) "B" = some (errorMarker "B" "boom") := by
  have h1 := parallel_round_failure_markers provHang cfgTwo []
    cfgTwo.roundtable.enabled_models (by decide)
  have h2 := parallel_round_failure_markers provFail cfgTwo []
    cfgTwo.roundtable.enabled_models (by decide)
  refine ⟨⟨h1.1, ?_⟩, ?_⟩
  · exact (h1.2 0 (by decide)).1 (by decide)
  · exact (h2.2 1 (by decide)).2 "boom" rfl (by decide)

/-- Claim C6 counterexample: settings `timeout_seconds = 30`; model `A` takes
25 time units, model `B` takes 50 — `B`'s in-flight call exceeds
`timeout_seconds` measured from its invocation start (all tasks start at
time 0), yet it is not cancelled and its entry is its real response, not the
timeout marker, because the loop only begins awaiting `B` at time 25 and
measures the 30-unit timeout from there. -/
theorem parallel_timeout_not_from_invocation_start :
    (provSlowB "B" []).duration > cfgTwo.roundtable.timeout_seconds ∧
    alookup (run_parallel_round provSlowB cfgTwo []
        cfgTwo.roundtable.enabled_models) "B" = some "beta" ∧
    alookup (run_parallel_round provSlowB cfgTwo []
        cfgTwo.roundtable.enabled_models) "B" ≠
      some (timeoutMarker "B") := by
  refine ⟨by decide, by decide, by decide⟩

/-- Claim C6 (amended): in a parallel round all tasks start together, but the
results are awaited one by one in configured order, each await bounded by
`timeout_seconds` measured from the moment the orchestrator reaches that
model (`awaitStart`, i.e. after all earlier-ordered models settled) — not
from the call's invocation start.  A model is cancelled and marked timed out
exactly when its call has not completed by `awaitStart + timeout_seconds`;
a timeout only substitutes that model's own entry and the remaining models
are still awaited (their entries are given by the same formula at their own
await-start times). -/
theorem parallel_timeout_await_deadline (provider : ProviderFun)
    (cfg : AIConfig) (history : List ChatMessage) (models : List String)
    (hnd : models.Nodup) (i : Nat) (hi : i < models.length) :
    alookup (run_parallel_round provider cfg history models)
        (models.get ⟨i, hi⟩) =
      some (parallelEntry provider cfg.roundtable.timeout_seconds history
        (models.get ⟨i, hi⟩)
        (awaitStart provider cfg.roundtable.timeout_seconds history
          (models.take i))) ∧
    ((provider (models.get ⟨i, hi⟩) history).duration >
        awaitStart provider cfg.roundtable.timeout_seconds history
          (models.take i) + cfg.roundtable.timeout_seconds →
      parallelEntry provider cfg.roundtable.timeout_seconds history
        (models.get ⟨i, hi⟩)
        (awaitStart provider cfg.roundtable.timeout_seconds history
          (models.take i)) = timeoutMarker (models.get ⟨i, hi⟩)) ∧
    ((provider (models.get ⟨i, hi⟩) history).duration ≤
        awaitStart provider cfg.roundtable.timeout_seconds history
          (models.take i) + cfg.roundtable.timeout_seconds →
      parallelEntry provider cfg.roundtable.timeout_seconds history
        (models.get ⟨i, hi⟩)
        (awaitStart provider cfg.roundtable.timeout_seconds history
          (models.take i)) =
        (match get_model_response provider (models.get ⟨i, hi⟩) history with
         | .ok response => response
         | .error e => errorMarker (models.get ⟨i, hi⟩) e)) := by
  refine ⟨?_, ?_, ?_⟩
  · rw [run_parallel_round_eq provider cfg history models hnd]
    simpa [awaitStart] using parallelList_alookup provider
      cfg.roundtable.timeout_seconds history models hnd i hi 0
  · intro hdur
    rw [parallelEntry, if_neg (Nat.not_le.mpr hdur)]
  · intro hdur
    rw [parallelEntry, if_pos hdur]

/-- Claim C6 amended witness: the instance of the counterexample seen through
the amended statement — `B` (duration 50) is awaited from time 25 and meets
the deadline `25 + 30`. -/
theorem parallel_timeout_await_deadline_witness :
    alookup (run_parallel_round provSlowB cfgTwo []
        cfgTwo.roundtable.enabled_models) "B" =
      some (parallelEntry provSlowB cfgTwo.roundtable.timeout_seconds []
        "B" (awaitStart provSlowB cfgTwo.roundtable.timeout_seconds []
          (cfgTwo.roundtable.enabled_models.take 1))) :=
  (parallel_timeout_await_deadline provSlowB cfgTwo []
    cfgTwo.roundtable.enabled_models (by decide) 1 (by decide)).1

/-- Claim C7 counterexample: model `A` streams chunks `["hello ", "world "]`;
the recorded response is `"hello world"`, not the raw concatenation
`"hello world "` — chat.py line 187 strips the concatenation. -/
theorem response_not_raw_concatenation :
    (provPad "A" []).chunks = .ok ["hello ", "world "] ∧
    alookup (run_parallel_round provPad cfgTwo []
        cfgTwo.roundtable.enabled_models) "A" = some "hello world" ∧
    alookup (run_parallel_round provPad cfgTwo []
        cfgTwo.roundtable.enabled_models) "A" ≠
      some (String.join ["hello ", "world "]) := by
  refine ⟨rfl, by decide, by decide⟩

/-- Claim C7 (amended): for every model invocation whose stream succeeds, the
text recorded in the round's responses dict (and hence appended as the
assistant turn) is the concatenation of the streamed fragments stripped of
leading and trailing whitespace (`"".join` then `.strip()`), in both the
parallel round (when the call beats its await deadline) and the sequential
round. -/
theorem response_is_stripped_concatenation (provider : ProviderFun)
    (cfg : AIConfig) (history : List ChatMessage) (models : List String)
    (hnd : models.Nodup)
    (hcfg : ∀ m ∈ models, (alookup cfg.models m).isSome) :
    (∀ i (hi : i < models.length) (cs : List String),
      (provider (models.get ⟨i, hi⟩) history).chunks = .ok cs →
      (provider (models.get ⟨i, hi⟩) history).duration ≤
        awaitStart provider cfg.roundtable.timeout_seconds history
          (models.take i) + cfg.roundtable.timeout_seconds →
      alookup (run_parallel_round provider cfg history models)
        (models.get ⟨i, hi⟩) = some (pyStrip (String.join cs))) ∧
    ∃ steps,
      run_sequential_round_aux provider cfg history models 0 [] =
        .ok steps ∧
      run_sequential_round provider cfg history models =
        .ok (steps.map (fun s => (s.model, s.value))) ∧
      ∀ j (hj : j < steps.length) (cs : List String),
        (provider (steps.get ⟨j, hj⟩).model
            (steps.get ⟨j, hj⟩).context).chunks = .ok cs →
        (steps.get ⟨j, hj⟩).value = pyStrip (String.join cs) := by
  constructor
  · intro i hi cs hcs hdur
    rw [run_parallel_round_eq provider cfg history models hnd,
      parallelList_alookup provider cfg.roundtable.timeout_seconds history
        models hnd i hi 0]
    rw [parallelEntry, if_pos (by simpa [awaitStart] using hdur)]
    simp only [List.get_eq_getElem] at hcs
    simp [get_model_response, hcs]
  · obtain ⟨steps, hrun, hkeys, _, hval⟩ :=
      run_sequential_round_aux_spec provider cfg history models 0 []
        hnd hcfg (fun m _ => rfl)
    have hresp : run_sequential_round provider cfg history models =
        .ok (steps.map (fun s => (s.model, s.value))) := by
      simp only [run_sequential_round, hrun, Except.map]
      rw [stepsToResponses_eq steps (by rw [hkeys]; exact hnd)]
    refine ⟨steps, hrun, hresp, ?_⟩
    intro j hj cs hcs
    rw [hval j hj]
    simp only [List.get_eq_getElem] at hcs
    simp [get_model_response, hcs]

/-- Claim C7 amended witness: the padded stream of `provPad` for `A` is
recorded stripped, in both modes. -/
theorem response_is_stripped_concatenation_witness :
    alookup (run_parallel_round provPad cfgTwo []
        cfgTwo.roundtable.enabled_models) "A" =
      some (pyStrip (String.join ["hello ", "world "])) :=
  (response_is_stripped_concatenation provPad cfgTwo []
    cfgTwo.roundtable.enabled_models (by decide) (by decide)).1
    0 (by decide) ["hello ", "world "] rfl (by decide)

/-- Claim C8: the orchestration is deterministic — for any two provider
clients that respond identically on every input (a fixed deterministic
stub), the same settings, mode, and seed prompt produce identical results,
hence conversations with the same turns, roles, contents, metadata and
order.  The embedding has no other source of nondeterminism: parallel
completion timing lives in the provider's `duration` field, which the
hypothesis also fixes. -/
theorem roundtable_deterministic (p q : ProviderFun) (cfg : AIConfig)
    (prompt : String) (parallel : Bool)
    (h : ∀ model messages, p model messages = q model messages) :
    roundtable_chat p cfg prompt parallel =
      roundtable_chat q cfg prompt parallel := by
  have hpq : p = q := funext fun model => funext fun messages =>
    h model messages
  rw [hpq]

/-- Claim C8 witness: the stub provider compared against itself. -/
theorem roundtable_deterministic_witness :
    roundtable_chat provSeq cfgTwo "topic" false =
      roundtable_chat provSeq cfgTwo "topic" false :=
  roundtable_deterministic provSeq provSeq cfgTwo "topic" false
    (fun _ _ => rfl)

/-- Claim C9: with role-based prompting and rotation enabled, the active
role in round `r` is element `r mod |assigned roles|` of the model's
assigned-role list, and a model with no assignments cycles through the full
enum in the canonical order generator, critic, refiner, evaluator
(element `r mod 4`). -/
theorem role_rotation_mod (settings : RoleSettings) (model : String)
    (r : Nat)
    (hu : settings.use_role_based_prompting = true)
    (hrot : settings.role_rotation = true) :
    (∀ assigned, alookup settings.role_assignments model = some assigned →
      assigned ≠ [] →
      active_role_for settings model r =
        some (assigned.getD (r % assigned.length) .generator)) ∧
    ((alookup settings.role_assignments model).getD [] = [] →
      active_role_for settings model r =
        some (canonicalRoles.getD (r % canonicalRoles.length)
          .generator)) := by
  constructor
  · intro assigned ha hne
    rw [active_role_for, if_neg (by simp [hu])]
    simp only [ha, Option.getD_some, hrot, if_true]
    rw [if_neg (by simpa [List.isEmpty_iff] using hne)]
  · intro ha
    rw [active_role_for, if_neg (by simp [hu])]
    simp only [ha, hrot, if_true]
    rw [if_pos (by simp [ha])]

/-- Claim C9 witness: a model assigned {generator, critic} alternates
generator, critic, generator, critic over rounds 0-3, and an unassigned
model plays the canonical cycle (refiner in round 2). -/
theorem role_rotation_mod_witness :
    active_role_for roleSettingsW "m" 0 = some .generator ∧
    active_role_for roleSettingsW "m" 1 = some .critic ∧
    active_role_for roleSettingsW "m" 2 = some .generator ∧
    active_role_for roleSettingsW "m" 3 = some .critic ∧
    active_role_for roleSettingsW "other" 2 = some .refiner := by
  have h0 := (role_rotation_mod roleSettingsW "m" 0 rfl rfl).1
    [.generator, .critic] rfl (by decide)
  have h1 := (role_rotation_mod roleSettingsW "m" 1 rfl rfl).1
    [.generator, .critic] rfl (by decide)
  have h2 := (role_rotation_mod roleSettingsW "m" 2 rfl rfl).1
    [.generator, .critic] rfl (by decide)
  have h3 := (role_rotation_mod roleSettingsW "m" 3 rfl rfl).1
    [.generator, .critic] rfl (by decide)
  have h4 := (role_rotation_mod roleSettingsW "other" 2 rfl rfl).2 rfl
  exact ⟨by simpa using h0, by simpa using h1, by simpa using h2,
    by simpa using h3, by simpa using h4⟩

/-- Claim C10: `get_model_config` raises `ValueError` (with the message
naming the model) exactly when the name is not a key of the `models`
mapping, and returns that model's stored `ModelConfig` when it is; being a
pure read, it leaves the configuration unchanged. -/
theorem get_model_config_spec (cfg : AIConfig) (name : String) :
    (get_model_config cfg name =
        .error ⟨"ValueError",
          s!"Model \x27{name}\x27 not found in configuration"⟩ ↔
      alookup cfg.models name = none) ∧
    ∀ c, alookup cfg.models name = some c →
      get_model_config cfg name = .ok c := by
  constructor
  · cases h : alookup cfg.models name with
    | none => simp [get_model_config, h]
    | some c => simp [get_model_config, h]
  · intro c hc
    simp [get_model_config, hc]

/-- Claim C10 witness: a present key returns its config, an absent key
raises. -/
theorem get_model_config_spec_witness :
    get_model_config cfgTwo "A" = .ok mcA ∧
    get_model_config cfgTwo "C" =
      .error ⟨"ValueError", "Model \x27C\x27 not found in configuration"⟩ :=
  ⟨(get_model_config_spec cfgTwo "A").2 mcA rfl,
    (get_model_config_spec cfgTwo "C").1.mpr rfl⟩

end AiCli
